import Mathlib

/-!
Shallow embedding of `backend/app/db.py` (class `DatabaseManager`), the
persistence layer of the meeting-minutes application.

The SQLite database is modelled as a record of tables, each table a list of
rows.  Columns declared `NOT NULL` become plain fields, nullable columns
become `Option` fields.  JSON text columns (`result`, `metadata`) hold
`json.dumps` of a Python dict; they are modelled by the dict itself, as an
association list, since this layer never inspects the serialized text.
`REAL` columns are modelled by `Rat`: the layer only stores and returns the
value, never computes with it.  Timestamps (`datetime.utcnow().isoformat()`)
are external inputs, passed to each operation as an explicit `now : String`.
Operations that can raise (`ValueError`, the duplicate-meeting `Exception`)
return `Except String _`; an `error` result means the operation performed
no write (the exception is raised before any statement, or the transaction
rolls back).
-/

namespace MeetingDB

/-- A JSON-compatible payload (`Dict` in the Python signatures), treated
opaquely by this layer. -/
abbrev Dict := List (String × String)

/-- Row of the `meetings` table. -/
structure MeetingRow where
  id : String
  title : String
  created_at : String
  updated_at : String
deriving DecidableEq, Repr

/-- Row of the `summary_processes` table.  `chunk_count INTEGER DEFAULT 0`,
`processing_time REAL DEFAULT 0.0`; the other optional columns default to
NULL. -/
structure ProcessRow where
  meeting_id : String
  status : String
  created_at : String
  updated_at : String
  error : Option String
  result : Option Dict
  start_time : Option String
  end_time : Option String
  chunk_count : Int
  processing_time : Rat
  metadata : Option Dict
deriving DecidableEq, Repr

/-- Row of the `transcript_chunks` table (the working transcript buffer). -/
structure ChunkRow where
  meeting_id : String
  meeting_name : Option String
  transcript_text : String
  model : String
  model_name : String
  chunk_size : Option Int
  overlap : Option Int
  created_at : String
deriving DecidableEq, Repr

/-- Row of the `settings` table. -/
structure SettingsRow where
  id : String
  provider : String
  model : String
  whisperModel : String
  groqApiKey : Option String
  openaiApiKey : Option String
  anthropicApiKey : Option String
  ollamaApiKey : Option String
deriving DecidableEq, Repr

/-- The database state: one list of rows per table.  The retained
`transcripts` append-log is not touched by any operation modelled here. -/
structure DB where
  meetings : List MeetingRow
  processes : List ProcessRow
  chunks : List ChunkRow
  settings : List SettingsRow
deriving DecidableEq, Repr

def emptyDB : DB := ⟨[], [], [], []⟩

/-- `WHERE meeting_id = ?` on `summary_processes`. -/
def pm (meeting_id : String) : ProcessRow → Bool := fun r => r.meeting_id == meeting_id

/-- `WHERE meeting_id = ?` on `transcript_chunks`. -/
def pc (meeting_id : String) : ChunkRow → Bool := fun r => r.meeting_id == meeting_id

/-- `WHERE id = '1'` on `settings`. -/
def ps1 : SettingsRow → Bool := fun r => r.id == "1"

/-- Default settings row inserted by `_init_db`:
`INSERT OR IGNORE INTO settings (id, provider, model, whisperModel)
VALUES ('1', 'openai', 'gpt-4o-mini', 'whisper-1')`; the API-key columns
are left NULL. -/
def defaultSettingsRow : SettingsRow :=
  { id := "1", provider := "openai", model := "gpt-4o-mini", whisperModel := "whisper-1",
    groqApiKey := none, openaiApiKey := none, anthropicApiKey := none, ollamaApiKey := none }

/-- `_init_db`: the `CREATE TABLE IF NOT EXISTS` statements do not change an
existing state; the `INSERT OR IGNORE` inserts the default settings row only
when no row with primary key `'1'` exists. -/
def _init_db (db : DB) : DB :=
  if db.settings.any ps1 then db
  else { db with settings := db.settings ++ [defaultSettingsRow] }

/-- Running the bootstrap `n` times in a row. -/
def initIter : Nat → DB → DB
  | 0, db => db
  | n + 1, db => initIter n (_init_db db)

/-- The fresh row inserted by `create_process` when the UPDATE changed no
rows: `INSERT INTO summary_processes (meeting_id, status, created_at,
updated_at, start_time) VALUES (?, 'PENDING', now, now, now)`; the remaining
columns take their schema defaults. -/
def freshProcess (meeting_id now : String) : ProcessRow :=
  { meeting_id := meeting_id, status := "PENDING", created_at := now, updated_at := now,
    error := none, result := none, start_time := some now, end_time := none,
    chunk_count := 0, processing_time := 0, metadata := none }

/-- The per-row effect of `create_process`'s UPDATE:
`SET status = 'PENDING', updated_at = ?, start_time = ?, error = NULL,
result = NULL`. -/
def resetP (r : ProcessRow) (now : String) : ProcessRow :=
  { r with status := "PENDING", updated_at := now, start_time := some now,
           error := none, result := none }

/-- `create_process(meeting_id)`: UPDATE the existing row to PENDING; if
`conn.total_changes == 0` (no row matched), INSERT a fresh PENDING row.
Returns the meeting id. -/
def create_process (db : DB) (meeting_id now : String) : DB × String :=
  let updated := db.processes.map fun r => if pm meeting_id r then resetP r now else r
  let total_changes := db.processes.countP (pm meeting_id)
  let processes :=
    if total_changes = 0 then updated ++ [freshProcess meeting_id now]
    else updated
  ({ db with processes := processes }, meeting_id)

/-- The per-row effect of the dynamically built UPDATE in `update_process`.
`status` and `updated_at` are always in `update_fields`; `result`, `error`
and `metadata` are appended under Python truthiness (`if result:` — a `None`
or empty value is skipped), `chunk_count` and `processing_time` under
`is not None`; a terminal `status` appends `end_time`. -/
def applyUpdate (r : ProcessRow) (status : String) (result : Option Dict)
    (error : Option String) (chunk_count : Option Int) (processing_time : Option Rat)
    (metadata : Option Dict) (now : String) : ProcessRow :=
  let r1 := { r with status := status, updated_at := now }
  let r2 := match result with
    | some d => if d.isEmpty then r1 else { r1 with result := some d }
    | none => r1
  let r3 := match error with
    | some e => if e == "" then r2 else { r2 with error := some e }
    | none => r2
  let r4 := match chunk_count with
    | some c => { r3 with chunk_count := c }
    | none => r3
  let r5 := match processing_time with
    | some t => { r4 with processing_time := t }
    | none => r4
  let r6 := match metadata with
    | some d => if d.isEmpty then r5 else { r5 with metadata := some d }
    | none => r5
  if status == "COMPLETED" || status == "FAILED" then { r6 with end_time := some now }
  else r6

/-- `update_process(meeting_id, status, result, error, chunk_count,
processing_time, metadata)`: one UPDATE of the matching row (a no-op when no
row matches `meeting_id`). -/
def update_process (db : DB) (meeting_id status : String) (result : Option Dict)
    (error : Option String) (chunk_count : Option Int) (processing_time : Option Rat)
    (metadata : Option Dict) (now : String) : DB :=
  let processes := db.processes.map fun r =>
    if pm meeting_id r then
      applyUpdate r status result error chunk_count processing_time metadata now
    else r
  { db with processes := processes }

/-- `save_transcript(meeting_id, transcript_text, model, model_name,
chunk_size, overlap)`: read the existing `transcript_text` (empty when the
row is absent or the stored text is falsy), concatenate, then
`INSERT OR REPLACE` the full row.  The column list of the INSERT omits
`meeting_name`, so the replacing row carries that column's default, NULL. -/
def save_transcript (db : DB) (meeting_id transcript_text model model_name : String)
    (chunk_size overlap : Int) (now : String) : DB :=
  let row := db.chunks.find? (pc meeting_id)
  let existing_text :=
    match row with
    | some r => if r.transcript_text == "" then "" else r.transcript_text
    | none => ""
  let accumulated_transcript_text :=
    if existing_text ≠ "" ∧ transcript_text ≠ "" then existing_text ++ transcript_text
    else if transcript_text ≠ "" then transcript_text
    else existing_text
  let newRow : ChunkRow :=
    { meeting_id := meeting_id, meeting_name := none,
      transcript_text := accumulated_transcript_text, model := model,
      model_name := model_name, chunk_size := some chunk_size,
      overlap := some overlap, created_at := now }
  { db with chunks := db.chunks.filter (fun r => !(pc meeting_id r)) ++ [newRow] }

/-- `update_meeting_name(meeting_id, meeting_name)`: dual UPDATE of
`meetings.title`/`updated_at` and of the denormalized
`transcript_chunks.meeting_name`. -/
def update_meeting_name (db : DB) (meeting_id meeting_name now : String) : DB :=
  let meetings := db.meetings.map fun r =>
    if r.id == meeting_id then { r with title := meeting_name, updated_at := now } else r
  let chunks := db.chunks.map fun r =>
    if pc meeting_id r then { r with meeting_name := some meeting_name } else r
  { db with meetings := meetings, chunks := chunks }

/-- Result of `get_transcript_data`: the chunk row's columns joined with the
process row's `status` and `result`. -/
structure TranscriptData where
  chunk : ChunkRow
  status : String
  result : Option Dict
deriving DecidableEq, Repr

/-- `get_transcript_data(meeting_id)`:
`SELECT t.*, p.status, p.result FROM transcript_chunks t JOIN
summary_processes p ON t.meeting_id = p.meeting_id WHERE t.meeting_id = ?`.
A pure read (the code only SELECTs). -/
def get_transcript_data (db : DB) (meeting_id : String) : Option TranscriptData :=
  match db.chunks.find? (pc meeting_id) with
  | none => none
  | some t =>
    match db.processes.find? (pm meeting_id) with
    | none => none
    | some p => some { chunk := t, status := p.status, result := p.result }

/-- `save_meeting(meeting_id, title)`: `SELECT id FROM meetings WHERE id = ?
OR title = ?`; when no row matches, INSERT the new meeting (with
`datetime('now')` timestamps, passed here as `now`) and return `True`;
otherwise raise before the commit, so nothing is written. -/
def save_meeting (db : DB) (meeting_id title now : String) : Except String (DB × Bool) :=
  match db.meetings.find? (fun r => r.id == meeting_id || r.title == title) with
  | none =>
    let newRow : MeetingRow :=
      { id := meeting_id, title := title, created_at := now, updated_at := now }
    Except.ok ({ db with meetings := db.meetings ++ [newRow] }, true)
  | some _ => Except.error ("Meeting with ID " ++ meeting_id ++ " already exists")

def provider_list : List String := ["openai", "claude", "groq", "ollama"]

/-- The `if/elif` chain mapping a validated provider to its column name.
The chain is exhaustive over `provider_list`; the `ollama` branch is the
last one taken. -/
def api_key_name (provider : String) : String :=
  if provider == "openai" then "openaiApiKey"
  else if provider == "claude" then "anthropicApiKey"
  else if provider == "groq" then "groqApiKey"
  else "ollamaApiKey"

/-- Effect of the dynamic-SQL `UPDATE settings SET {api_key_name} = ?`:
write `v` to the named column, leaving every other column alone. -/
def setColumn (name : String) (v : Option String) (r : SettingsRow) : SettingsRow :=
  if name == "openaiApiKey" then { r with openaiApiKey := v }
  else if name == "anthropicApiKey" then { r with anthropicApiKey := v }
  else if name == "groqApiKey" then { r with groqApiKey := v }
  else if name == "ollamaApiKey" then { r with ollamaApiKey := v }
  else r

/-- Read of the dynamic-SQL `SELECT {api_key_name} FROM settings`. -/
def getColumn (name : String) (r : SettingsRow) : Option String :=
  if name == "openaiApiKey" then r.openaiApiKey
  else if name == "anthropicApiKey" then r.anthropicApiKey
  else if name == "groqApiKey" then r.groqApiKey
  else if name == "ollamaApiKey" then r.ollamaApiKey
  else none

/-- `save_api_key(api_key, provider)`: reject a provider outside
`provider_list` with `ValueError(f"Invalid provider: ...")` before any
storage access; otherwise UPDATE the dedicated column of the row with
id `'1'`. -/
def save_api_key (db : DB) (api_key provider : String) : Except String DB :=
  if provider ∉ provider_list then Except.error ("Invalid provider: " ++ provider)
  else
    let settings := db.settings.map fun r =>
      if ps1 r then setColumn (api_key_name provider) (some api_key) r else r
    Except.ok { db with settings := settings }

/-- `get_api_key(provider)`: validate, then
`SELECT {api_key_name} FROM settings WHERE id = '1'` and return
`row[0] if row and row[0] else None` (a missing row or a falsy stored value
yields `None`). -/
def get_api_key (db : DB) (provider : String) : Except String (Option String) :=
  if provider ∉ provider_list then Except.error ("Invalid provider: " ++ provider)
  else
    match db.settings.find? ps1 with
    | none => Except.ok none
    | some r =>
      match getColumn (api_key_name provider) r with
      | some v => Except.ok (if v == "" then none else some v)
      | none => Except.ok none

/-- `delete_api_key(provider)`: validate, then
`UPDATE settings SET {api_key_name} = NULL WHERE id = '1'` — the column is
nulled, no row is deleted. -/
def delete_api_key (db : DB) (provider : String) : Except String DB :=
  if provider ∉ provider_list then Except.error ("Invalid provider: " ++ provider)
  else
    let settings := db.settings.map fun r =>
      if ps1 r then setColumn (api_key_name provider) none r else r
    Except.ok { db with settings := settings }

/-- The four dedicated API-key columns of the `settings` table. -/
def api_key_columns : List String :=
  ["openaiApiKey", "anthropicApiKey", "groqApiKey", "ollamaApiKey"]

/-- The store after `UPDATE settings SET {name} = v WHERE id = '1'`: the
named column of the id-`'1'` row is written, everything else kept. -/
def updateKeyColumn (db : DB) (name : String) (v : Option String) : DB :=
  let settings := db.settings.map fun r => if ps1 r then setColumn name v r else r
  { db with settings := settings }

/-- The row inserted by `save_meeting` (both timestamps are the insert's
`datetime('now')`). -/
def newMeetingRow (meeting_id title now : String) : MeetingRow :=
  { id := meeting_id, title := title, created_at := now, updated_at := now }

/-- The row written by `save_transcript` for meeting `m`, as a function of
the previously stored text (`""` when the row was absent). -/
def savedChunkRow (m existing txt model mn : String) (cs ov : Int) (now : String) :
    ChunkRow :=
  { meeting_id := m, meeting_name := none,
    transcript_text :=
      if existing ≠ "" ∧ txt ≠ "" then existing ++ txt
      else if txt ≠ "" then txt
      else existing,
    model := model, model_name := mn, chunk_size := some cs,
    overlap := some ov, created_at := now }

/-! ### Call sequences

Iterated calls, used to state the lifecycle invariants quantified over
"any sequence of calls". -/

/-- Iterating `create_process` over a list of call timestamps. -/
def runCreates (db : DB) (m : String) : List String → DB
  | [] => db
  | now :: rest => runCreates (create_process db m now).1 m rest

/-- One call in a process lifecycle: a `create_process` call or an
`update_process` call with the given arguments, each carrying its own
timestamp. -/
inductive ProcOp where
  | create (now : String)
  | update (status : String) (result : Option Dict) (error : Option String)
      (chunk_count : Option Int) (processing_time : Option Rat)
      (metadata : Option Dict) (now : String)

def applyOp (db : DB) (m : String) : ProcOp → DB
  | ProcOp.create now => (create_process db m now).1
  | ProcOp.update st res err cc pt md now => update_process db m st res err cc pt md now

def runOps (db : DB) (m : String) : List ProcOp → DB
  | [] => db
  | op :: rest => runOps (applyOp db m op) m rest

/-- The `end_time` value an operation stamps: only an `update_process`
call whose status is terminal (`COMPLETED` or `FAILED`) stamps `end_time`,
with that call's own timestamp. -/
def terminalStamp : ProcOp → Option String
  | ProcOp.create _ => none
  | ProcOp.update st _ _ _ _ _ now =>
    if st == "COMPLETED" || st == "FAILED" then some now else none

/-- The stamp of the last terminal update in a call sequence, if any. -/
def lastTerminalStamp : List ProcOp → Option String
  | [] => none
  | op :: rest =>
    match lastTerminalStamp rest with
    | some t => some t
    | none => terminalStamp op

/-! ### Generic list lemmas

Facts about `find?`, `countP`, `map` and `filter` used to reason about the
row-level effect of the SQL statements. -/

theorem find?_map_pres {α : Type} (p : α → Bool) (f : α → α)
    (hf : ∀ a, p (f a) = p a) :
    ∀ l : List α, (l.map f).find? p = (l.find? p).map f
  | [] => rfl
  | a :: l => by
    by_cases h : p a
    · simp [List.find?_cons, hf a, h]
    · rw [Bool.not_eq_true] at h
      simp [List.find?_cons, hf a, h, find?_map_pres p f hf l]

theorem countP_map_pres {α : Type} (p : α → Bool) (f : α → α)
    (hf : ∀ a, p (f a) = p a) :
    ∀ l : List α, (l.map f).countP p = l.countP p
  | [] => rfl
  | a :: l => by
    simp [List.countP_cons, hf a, countP_map_pres p f hf l]

theorem map_id_of_none {α : Type} (p : α → Bool) (f : α → α) :
    ∀ l : List α, l.find? p = none →
    (l.map fun a => if p a then f a else a) = l
  | [], _ => rfl
  | a :: l, h => by
    rw [List.find?_cons] at h
    cases ha : p a with
    | true => rw [ha] at h; exact absurd h (by simp)
    | false =>
      rw [ha] at h
      simp [ha, map_id_of_none p f l h]

theorem find?_append_none {α : Type} (p : α → Bool) (l₁ l₂ : List α)
    (h : l₁.find? p = none) :
    (l₁ ++ l₂).find? p = l₂.find? p := by
  induction l₁ with
  | nil => rfl
  | cons a l ih =>
    rw [List.find?_cons] at h
    cases ha : p a with
    | true => rw [ha] at h; exact absurd h (by simp)
    | false =>
      rw [ha] at h
      simp [List.find?_cons, ha, ih h]

theorem find?_append_some {α : Type} (p : α → Bool) (l₁ l₂ : List α) (a : α)
    (h : l₁.find? p = some a) :
    (l₁ ++ l₂).find? p = some a := by
  induction l₁ with
  | nil => simp at h
  | cons b l ih =>
    rw [List.find?_cons] at h
    cases hb : p b with
    | true => rw [hb] at h; simpa [List.find?_cons, hb] using h
    | false =>
      rw [hb] at h
      simp [List.find?_cons, hb, ih h]

theorem find?_filter_self_none {α : Type} (p : α → Bool) :
    ∀ l : List α, (l.filter fun a => !(p a)).find? p = none
  | [] => rfl
  | a :: l => by
    cases ha : p a with
    | true => simp [List.filter_cons, ha, find?_filter_self_none p l]
    | false => simp [List.filter_cons, ha, List.find?_cons, find?_filter_self_none p l]

theorem find?_filter_disj {α : Type} (p q : α → Bool)
    (hpq : ∀ a, p a = true → q a = false) :
    ∀ l : List α, (l.filter fun a => !(q a)).find? p = l.find? p
  | [] => rfl
  | a :: l => by
    cases ha : q a with
    | true =>
      have hpa : p a = false := by
        cases hp : p a with
        | true => rw [hpq a hp] at ha; exact absurd ha (by simp)
        | false => rfl
      simp [List.filter_cons, ha, List.find?_cons, hpa, find?_filter_disj p q hpq l]
    | false =>
      cases hp : p a with
      | true => simp [List.filter_cons, ha, List.find?_cons, hp]
      | false => simp [List.filter_cons, ha, List.find?_cons, hp, find?_filter_disj p q hpq l]

theorem countP_eq_zero_of_find?_none {α : Type} (p : α → Bool) (l : List α)
    (h : l.find? p = none) : l.countP p = 0 :=
  List.countP_eq_zero.mpr (List.find?_eq_none.mp h)

theorem countP_ne_zero_of_find?_some {α : Type} (p : α → Bool) (l : List α) (a : α)
    (h : l.find? p = some a) : l.countP p ≠ 0 := by
  intro hz
  exact List.countP_eq_zero.mp hz a (List.mem_of_find?_eq_some h) (List.find?_some h)

theorem getLastD_cons' {α : Type} (a d : α) (l : List α) :
    (a :: l).getLastD d = l.getLastD a := by
  cases l <;> simp [List.getLastD]

theorem find?_none_of_countP_zero {α : Type} (p : α → Bool) (l : List α)
    (h : l.countP p = 0) : l.find? p = none :=
  List.find?_eq_none.mpr (List.countP_eq_zero.mp h)

/-! ### Process-tracker lemmas -/

theorem pm_resetP (m : String) (r : ProcessRow) (now : String) :
    pm m (resetP r now) = pm m r := rfl

theorem pm_create_step (m now : String) (r : ProcessRow) :
    pm m (if pm m r then resetP r now else r) = pm m r := by
  by_cases h : pm m r <;> simp [h, pm_resetP]

theorem create_process_snd (db : DB) (m now : String) :
    (create_process db m now).2 = m := rfl

theorem create_process_frame (db : DB) (m now : String) :
    ((create_process db m now).1.meetings = db.meetings) ∧
    ((create_process db m now).1.chunks = db.chunks) ∧
    ((create_process db m now).1.settings = db.settings) := by
  unfold create_process
  by_cases h : db.processes.countP (pm m) = 0 <;> simp [h]

theorem create_process_absent (db : DB) (m now : String)
    (h : db.processes.find? (pm m) = none) :
    (create_process db m now).1 =
      { db with processes := db.processes ++ [freshProcess m now] } := by
  have hz : db.processes.countP (pm m) = 0 := countP_eq_zero_of_find?_none _ _ h
  have hmap := map_id_of_none (pm m) (fun r => resetP r now) db.processes h
  simp [create_process, hz, hmap]

theorem create_process_present (db : DB) (m now : String)
    (h : db.processes.countP (pm m) ≠ 0) :
    (create_process db m now).1 =
      { db with processes :=
          db.processes.map fun r => if pm m r then resetP r now else r } := by
  simp [create_process, h]

theorem create_process_countP (db : DB) (m now : String) :
    (create_process db m now).1.processes.countP (pm m) =
      if db.processes.countP (pm m) = 0 then 1 else db.processes.countP (pm m) := by
  by_cases h : db.processes.countP (pm m) = 0
  · rw [if_pos h, create_process_absent db m now (find?_none_of_countP_zero _ _ h)]
    simp only [List.countP_append, h]
    simp [List.countP_cons, pm, freshProcess]
  · rw [if_neg h, create_process_present db m now h]
    exact countP_map_pres _ _ (pm_create_step m now) db.processes

theorem create_process_find?_present (db : DB) (m now : String) (r0 : ProcessRow)
    (h : db.processes.find? (pm m) = some r0) :
    (create_process db m now).1.processes.find? (pm m) = some (resetP r0 now) := by
  rw [create_process_present db m now (countP_ne_zero_of_find?_some _ _ _ h)]
  have hmap := find?_map_pres (pm m) (fun r => if pm m r then resetP r now else r)
    (pm_create_step m now) db.processes
  have hr := List.find?_some h
  simp [hmap, h, hr]

theorem create_process_find?_absent (db : DB) (m now : String)
    (h : db.processes.find? (pm m) = none) :
    (create_process db m now).1.processes.find? (pm m) = some (freshProcess m now) := by
  rw [create_process_absent db m now h]
  simp only
  rw [find?_append_none _ _ _ h]
  simp [List.find?_cons, pm, freshProcess]

theorem foldl_resetP_fields :
    ∀ (rest : List String) (r : ProcessRow) (d : String),
    r.status = "PENDING" → r.error = none → r.result = none →
    r.updated_at = d → r.start_time = some d →
    (rest.foldl resetP r).status = "PENDING" ∧
    (rest.foldl resetP r).error = none ∧
    (rest.foldl resetP r).result = none ∧
    (rest.foldl resetP r).updated_at = rest.getLastD d ∧
    (rest.foldl resetP r).start_time = some (rest.getLastD d) ∧
    (rest.foldl resetP r).created_at = r.created_at ∧
    (rest.foldl resetP r).end_time = r.end_time
  | [], r, d, h1, h2, h3, h4, h5 => ⟨h1, h2, h3, h4, h5, rfl, rfl⟩
  | now :: rest, r, d, _, _, _, _, _ => by
    rw [List.foldl_cons, getLastD_cons']
    exact foldl_resetP_fields rest (resetP r now) now rfl rfl rfl rfl rfl

theorem runCreates_go (m : String) :
    ∀ (rest : List String) (db : DB) (r : ProcessRow),
    db.processes.countP (pm m) = 1 →
    db.processes.find? (pm m) = some r →
    (runCreates db m rest).processes.countP (pm m) = 1 ∧
    (runCreates db m rest).processes.find? (pm m) = some (rest.foldl resetP r)
  | [], _, _, h1, h2 => ⟨h1, h2⟩
  | now :: rest, db, r, h1, h2 => by
    have hcount : (create_process db m now).1.processes.countP (pm m) = 1 := by
      rw [create_process_countP, h1]; simp
    have hfind := create_process_find?_present db m now r h2
    exact runCreates_go m rest (create_process db m now).1 (resetP r now) hcount hfind

/-- C4: for every meeting `m`, after any non-empty sequence of
`create_process(m)` calls (timestamps `now0 :: rest`), exactly one
`summary_processes` row exists for `m`, with status `PENDING` and
`error = result = NULL`; a call on an existing row refreshes `updated_at`
and `start_time` (to the last call's timestamp) while preserving
`created_at` (the first call's timestamp when the row was freshly
inserted), and every call returns the meeting id.  The hypothesis is the
primary-key invariant: at most one pre-existing row for `m`. -/
theorem C4_create_process_upsert (db : DB) (m now0 : String) (rest : List String)
    (h : db.processes.countP (pm m) ≤ 1) :
    (runCreates db m (now0 :: rest)).processes.countP (pm m) = 1 ∧
    (∃ r, (runCreates db m (now0 :: rest)).processes.find? (pm m) = some r ∧
      r.status = "PENDING" ∧ r.error = none ∧ r.result = none ∧
      r.updated_at = rest.getLastD now0 ∧
      r.start_time = some (rest.getLastD now0) ∧
      r.created_at = (match db.processes.find? (pm m) with
                      | some r0 => r0.created_at
                      | none => now0)) ∧
    (∀ (d : DB) (now : String), (create_process d m now).2 = m) := by
  cases hf : db.processes.find? (pm m) with
  | none =>
    have h1 : (create_process db m now0).1.processes.countP (pm m) = 1 := by
      rw [create_process_countP, countP_eq_zero_of_find?_none _ _ hf]
      simp
    have h2 := create_process_find?_absent db m now0 hf
    have hgo := runCreates_go m rest (create_process db m now0).1 (freshProcess m now0) h1 h2
    have hfields := foldl_resetP_fields rest (freshProcess m now0) now0 rfl rfl rfl rfl rfl
    exact ⟨hgo.1, ⟨rest.foldl resetP (freshProcess m now0), hgo.2, hfields.1, hfields.2.1,
      hfields.2.2.1, hfields.2.2.2.1, hfields.2.2.2.2.1, hfields.2.2.2.2.2.1⟩,
      fun d now => rfl⟩
  | some r0 =>
    have hc1 : db.processes.countP (pm m) = 1 :=
      Nat.le_antisymm h (Nat.one_le_iff_ne_zero.mpr (countP_ne_zero_of_find?_some _ _ _ hf))
    have h1 : (create_process db m now0).1.processes.countP (pm m) = 1 := by
      rw [create_process_countP, hc1]
      simp
    have h2 := create_process_find?_present db m now0 r0 hf
    have hgo := runCreates_go m rest (create_process db m now0).1 (resetP r0 now0) h1 h2
    have hfields := foldl_resetP_fields rest (resetP r0 now0) now0 rfl rfl rfl rfl rfl
    exact ⟨hgo.1, ⟨rest.foldl resetP (resetP r0 now0), hgo.2, hfields.1, hfields.2.1,
      hfields.2.2.1, hfields.2.2.2.1, hfields.2.2.2.2.1, hfields.2.2.2.2.2.1⟩,
      fun d now => rfl⟩

/-- Witness for `C4_create_process_upsert`: two `create_process("m1")` calls
on the empty store leave one PENDING row whose `created_at` is the first
call's timestamp and whose `updated_at`/`start_time` are the second's. -/
theorem C4_witness :
    emptyDB.processes.countP (pm "m1") ≤ 1 ∧
    ((runCreates emptyDB "m1" ["t1", "t2"]).processes.countP (pm "m1") = 1 ∧
    (∃ r, (runCreates emptyDB "m1" ["t1", "t2"]).processes.find? (pm "m1") = some r ∧
      r.status = "PENDING" ∧ r.error = none ∧ r.result = none ∧
      r.updated_at = ["t2"].getLastD "t1" ∧
      r.start_time = some (["t2"].getLastD "t1") ∧
      r.created_at = (match emptyDB.processes.find? (pm "m1") with
                      | some r0 => r0.created_at
                      | none => "t1")) ∧
    (∀ (d : DB) (now : String), (create_process d "m1" now).2 = "m1")) :=
  ⟨by decide, C4_create_process_upsert emptyDB "m1" "t1" ["t2"] (by decide)⟩

/-! ### `update_process` lemmas -/

/-- Field-level characterization of `applyUpdate`: `status` and
`updated_at` are always written; `result`, `error`, `metadata` only when
supplied truthy; `chunk_count`, `processing_time` only when supplied;
`end_time` exactly when the new status is terminal; every other column is
untouched. -/
theorem applyUpdate_fields (r : ProcessRow) (st : String) (res : Option Dict)
    (err : Option String) (cc : Option Int) (pt : Option Rat) (md : Option Dict)
    (now : String) :
    (applyUpdate r st res err cc pt md now).meeting_id = r.meeting_id ∧
    (applyUpdate r st res err cc pt md now).status = st ∧
    (applyUpdate r st res err cc pt md now).updated_at = now ∧
    (applyUpdate r st res err cc pt md now).created_at = r.created_at ∧
    (applyUpdate r st res err cc pt md now).start_time = r.start_time ∧
    (applyUpdate r st res err cc pt md now).result =
      (match res with
       | some d => if d.isEmpty then r.result else some d
       | none => r.result) ∧
    (applyUpdate r st res err cc pt md now).error =
      (match err with
       | some e => if e == "" then r.error else some e
       | none => r.error) ∧
    (applyUpdate r st res err cc pt md now).chunk_count =
      (match cc with
       | some c => c
       | none => r.chunk_count) ∧
    (applyUpdate r st res err cc pt md now).processing_time =
      (match pt with
       | some t => t
       | none => r.processing_time) ∧
    (applyUpdate r st res err cc pt md now).metadata =
      (match md with
       | some d => if d.isEmpty then r.metadata else some d
       | none => r.metadata) ∧
    (applyUpdate r st res err cc pt md now).end_time =
      (if st == "COMPLETED" || st == "FAILED" then some now else r.end_time) := by
  unfold applyUpdate
  cases res <;> cases err <;> cases cc <;> cases pt <;> cases md <;>
    simp only [] <;> split_ifs <;> simp_all

theorem pm_applyUpdate (m : String) (r : ProcessRow) (st : String) (res : Option Dict)
    (err : Option String) (cc : Option Int) (pt : Option Rat) (md : Option Dict)
    (now : String) :
    pm m (applyUpdate r st res err cc pt md now) = pm m r := by
  show ((applyUpdate r st res err cc pt md now).meeting_id == m) = (r.meeting_id == m)
  rw [(applyUpdate_fields r st res err cc pt md now).1]

theorem pm_update_step (m : String) (st : String) (res : Option Dict)
    (err : Option String) (cc : Option Int) (pt : Option Rat) (md : Option Dict)
    (now : String) (r : ProcessRow) :
    pm m (if pm m r then applyUpdate r st res err cc pt md now else r) = pm m r := by
  by_cases h : pm m r <;> simp [h, pm_applyUpdate]

theorem update_process_frame (db : DB) (m st : String) (res : Option Dict)
    (err : Option String) (cc : Option Int) (pt : Option Rat) (md : Option Dict)
    (now : String) :
    ((update_process db m st res err cc pt md now).meetings = db.meetings) ∧
    ((update_process db m st res err cc pt md now).chunks = db.chunks) ∧
    ((update_process db m st res err cc pt md now).settings = db.settings) :=
  ⟨rfl, rfl, rfl⟩

theorem update_process_find?_present (db : DB) (m st : String) (res : Option Dict)
    (err : Option String) (cc : Option Int) (pt : Option Rat) (md : Option Dict)
    (now : String) (r0 : ProcessRow)
    (h : db.processes.find? (pm m) = some r0) :
    (update_process db m st res err cc pt md now).processes.find? (pm m) =
      some (applyUpdate r0 st res err cc pt md now) := by
  unfold update_process
  have hmap := find?_map_pres (pm m)
    (fun r => if pm m r then applyUpdate r st res err cc pt md now else r)
    (pm_update_step m st res err cc pt md now) db.processes
  have hr := List.find?_some h
  simp [hmap, h, hr]

theorem update_process_find?_other (db : DB) (m m' st : String) (res : Option Dict)
    (err : Option String) (cc : Option Int) (pt : Option Rat) (md : Option Dict)
    (now : String) (hmm : m' ≠ m) :
    (update_process db m st res err cc pt md now).processes.find? (pm m') =
      db.processes.find? (pm m') := by
  unfold update_process
  have hpres : ∀ r, pm m' (if pm m r then applyUpdate r st res err cc pt md now else r) =
      pm m' r := by
    intro r
    by_cases h : pm m r <;> simp [h, pm_applyUpdate]
  have hmap := find?_map_pres (pm m')
    (fun r => if pm m r then applyUpdate r st res err cc pt md now else r)
    hpres db.processes
  simp only [hmap]
  cases hf : db.processes.find? (pm m') with
  | none => rfl
  | some a =>
    have ha : pm m' a = true := List.find?_some hf
    have ham : pm m a = false := by
      have : a.meeting_id = m' := by simpa [pm] using ha
      simp [pm, this, hmm]
    simp [ham]

/-- C6: `update_process` on a meeting id with no `summary_processes` row
matches zero rows and leaves the store completely unchanged; it returns
normally (its type has no failure path — the code raises no exception and
creates no row). -/
theorem C6_update_process_noop (db : DB) (m st : String) (res : Option Dict)
    (err : Option String) (cc : Option Int) (pt : Option Rat) (md : Option Dict)
    (now : String) (h : db.processes.find? (pm m) = none) :
    update_process db m st res err cc pt md now = db := by
  simp only [update_process]
  rw [map_id_of_none (pm m) (fun r => applyUpdate r st res err cc pt md now) db.processes h]

/-- Witness for `C6_update_process_noop`: a terminal update for an unknown
meeting on the empty store is the identity. -/
theorem C6_witness :
    emptyDB.processes.find? (pm "m9") = none ∧
    update_process emptyDB "m9" "COMPLETED" none none none none none "t1" = emptyDB :=
  ⟨rfl, C6_update_process_noop emptyDB "m9" "COMPLETED" none none none none none "t1" rfl⟩

/-- C5 counterexample: the claim says each optional field is written
exactly when the argument is supplied.  Supplying `result = {}` (empty
dict), `error = ""` and `metadata = {}` — all supplied, none truthy —
writes none of them: the row created by `create_process` keeps
`result = error = metadata = NULL` after the update. -/
theorem C5_counterexample :
    ∃ r, (update_process (create_process emptyDB "m1" "t1").1 "m1" "PENDING"
        (some []) (some "") none none (some []) "t2").processes.find? (pm "m1") = some r ∧
      r.result = none ∧ r.error = none ∧ r.metadata = none ∧ r.updated_at = "t2" :=
  ⟨_, rfl, rfl, rfl, rfl, rfl⟩

/-- C5 (amended): on an existing row, `update_process` always writes
`status` and `updated_at`; it writes `result`, `error` and `metadata`
exactly when the supplied argument is truthy (non-`None` and non-empty),
and `chunk_count` and `processing_time` exactly when supplied (non-`None`);
unsupplied fields, `created_at` and `start_time` are unchanged; a terminal
`status` additionally stamps `end_time := now`; rows of other meetings and
all other tables are untouched. -/
theorem C5_update_process_partial (db : DB) (m st : String) (res : Option Dict)
    (err : Option String) (cc : Option Int) (pt : Option Rat) (md : Option Dict)
    (now : String) (r0 : ProcessRow)
    (h : db.processes.find? (pm m) = some r0) :
    ∃ r, (update_process db m st res err cc pt md now).processes.find? (pm m) = some r ∧
      r.status = st ∧ r.updated_at = now ∧
      r.created_at = r0.created_at ∧ r.start_time = r0.start_time ∧
      r.result = (match res with
                  | some d => if d.isEmpty then r0.result else some d
                  | none => r0.result) ∧
      r.error = (match err with
                 | some e => if e == "" then r0.error else some e
                 | none => r0.error) ∧
      r.chunk_count = (match cc with
                       | some c => c
                       | none => r0.chunk_count) ∧
      r.processing_time = (match pt with
                           | some t => t
                           | none => r0.processing_time) ∧
      r.metadata = (match md with
                    | some d => if d.isEmpty then r0.metadata else some d
                    | none => r0.metadata) ∧
      r.end_time = (if st == "COMPLETED" || st == "FAILED" then some now else r0.end_time) ∧
      (∀ m', m' ≠ m →
        (update_process db m st res err cc pt md now).processes.find? (pm m') =
          db.processes.find? (pm m')) ∧
      (update_process db m st res err cc pt md now).meetings = db.meetings ∧
      (update_process db m st res err cc pt md now).chunks = db.chunks ∧
      (update_process db m st res err cc pt md now).settings = db.settings := by
  obtain ⟨hmid, hst, hup, hcr, hstt, hres, herr, hcc, hpt, hmd, hend⟩ :=
    applyUpdate_fields r0 st res err cc pt md now
  exact ⟨applyUpdate r0 st res err cc pt md now,
    update_process_find?_present db m st res err cc pt md now r0 h,
    hst, hup, hcr, hstt, hres, herr, hcc, hpt, hmd, hend,
    fun m' hmm => update_process_find?_other db m m' st res err cc pt md now hmm,
    rfl, rfl, rfl⟩

/-- Witness for `C5_update_process_partial`: a COMPLETED update with a
non-empty result payload on the row freshly created for `"m1"`. -/
theorem C5_witness :
    ∃ r, (update_process (create_process emptyDB "m1" "t1").1 "m1" "COMPLETED"
        (some [("summary", "ok")]) none none none none "t2").processes.find? (pm "m1") =
          some r ∧
      r.status = "COMPLETED" ∧ r.updated_at = "t2" ∧
      r.created_at = (freshProcess "m1" "t1").created_at ∧
      r.start_time = (freshProcess "m1" "t1").start_time ∧
      r.result = (match some [("summary", "ok")] with
                  | some d => if List.isEmpty d then (freshProcess "m1" "t1").result else some d
                  | none => (freshProcess "m1" "t1").result) ∧
      r.error = (match (none : Option String) with
                 | some e => if e == "" then (freshProcess "m1" "t1").error else some e
                 | none => (freshProcess "m1" "t1").error) ∧
      r.chunk_count = (match (none : Option Int) with
                       | some c => c
                       | none => (freshProcess "m1" "t1").chunk_count) ∧
      r.processing_time = (match (none : Option Rat) with
                           | some t => t
                           | none => (freshProcess "m1" "t1").processing_time) ∧
      r.metadata = (match (none : Option Dict) with
                    | some d => if List.isEmpty d then (freshProcess "m1" "t1").metadata
                                else some d
                    | none => (freshProcess "m1" "t1").metadata) ∧
      r.end_time = (if "COMPLETED" == "COMPLETED" || "COMPLETED" == "FAILED"
                    then some "t2" else (freshProcess "m1" "t1").end_time) ∧
      (∀ m', m' ≠ "m1" →
        (update_process (create_process emptyDB "m1" "t1").1 "m1" "COMPLETED"
          (some [("summary", "ok")]) none none none none "t2").processes.find? (pm m') =
          (create_process emptyDB "m1" "t1").1.processes.find? (pm m')) ∧
      (update_process (create_process emptyDB "m1" "t1").1 "m1" "COMPLETED"
        (some [("summary", "ok")]) none none none none "t2").meetings =
        (create_process emptyDB "m1" "t1").1.meetings ∧
      (update_process (create_process emptyDB "m1" "t1").1 "m1" "COMPLETED"
        (some [("summary", "ok")]) none none none none "t2").chunks =
        (create_process emptyDB "m1" "t1").1.chunks ∧
      (update_process (create_process emptyDB "m1" "t1").1 "m1" "COMPLETED"
        (some [("summary", "ok")]) none none none none "t2").settings =
        (create_process emptyDB "m1" "t1").1.settings :=
  C5_update_process_partial (create_process emptyDB "m1" "t1").1 "m1" "COMPLETED"
    (some [("summary", "ok")]) none none none none "t2" (freshProcess "m1" "t1") rfl

/-- C1 counterexample: the claim says `end_time` is non-null iff the
stored status is terminal.  After `create_process`, a COMPLETED update and
a second `create_process`, the row has status `PENDING` (non-terminal) but
`end_time` still carries the stamp `"t2"`: `create_process` resets
`status`, `error` and `result` but does not clear `end_time`. -/
theorem C1_counterexample :
    ∃ r, (create_process (update_process (create_process emptyDB "m1" "t1").1 "m1"
        "COMPLETED" none none none none none "t2") "m1" "t3").1.processes.find? (pm "m1") =
          some r ∧
      r.status = "PENDING" ∧ r.end_time = some "t2" :=
  ⟨_, rfl, rfl, rfl⟩

/-- C1 (amended): over any sequence of `create_process` and
`update_process` calls on a meeting that has a process row, the stored
`end_time` equals the timestamp of the last `update_process` call that set
a terminal status (COMPLETED or FAILED), and equals its initial value when
no such call occurred — so `end_time` is stamped exactly at terminal
updates and stays null until the first one, but it is never cleared:
after a terminal update, a later `create_process` or non-terminal update
leaves `end_time` non-null while the status is no longer terminal. -/
theorem C1_end_time_characterization (m : String) (ops : List ProcOp) :
    ∀ (db : DB) (r0 : ProcessRow), db.processes.find? (pm m) = some r0 →
    ∃ r, (runOps db m ops).processes.find? (pm m) = some r ∧
      r.end_time = (match lastTerminalStamp ops with
                    | some t => some t
                    | none => r0.end_time) := by
  induction ops with
  | nil => exact fun db r0 h => ⟨r0, h, rfl⟩
  | cons op rest ih =>
    intro db r0 h
    have step : ∃ r1, (applyOp db m op).processes.find? (pm m) = some r1 ∧
        r1.end_time = (match terminalStamp op with
                       | some t => some t
                       | none => r0.end_time) := by
      cases op with
      | create now => exact ⟨resetP r0 now, create_process_find?_present db m now r0 h, rfl⟩
      | update st res err cc pt md now =>
        refine ⟨applyUpdate r0 st res err cc pt md now,
          update_process_find?_present db m st res err cc pt md now r0 h, ?_⟩
        have hend := (applyUpdate_fields r0 st res err cc pt md now).2.2.2.2.2.2.2.2.2.2
        rw [hend]
        by_cases hterm : (st == "COMPLETED" || st == "FAILED") = true
        · simp [terminalStamp, hterm]
        · simp [terminalStamp, hterm]
    obtain ⟨r1, h1, he1⟩ := step
    obtain ⟨r, hr, her⟩ := ih (applyOp db m op) r1 h1
    refine ⟨r, hr, ?_⟩
    rw [her, he1]
    show (match lastTerminalStamp rest with
          | some t => some t
          | none => match terminalStamp op with
                    | some t => some t
                    | none => r0.end_time) =
      (match lastTerminalStamp (op :: rest) with
       | some t => some t
       | none => r0.end_time)
    cases hl : lastTerminalStamp rest with
    | some t => simp [lastTerminalStamp, hl]
    | none => simp [lastTerminalStamp, hl]

/-- Witness for `C1_end_time_characterization`: one COMPLETED update on the
row created for `"m1"` gives `end_time` = the update's timestamp. -/
theorem C1_witness :
    ∃ r, (runOps (create_process emptyDB "m1" "t1").1 "m1"
        [ProcOp.update "COMPLETED" none none none none none "t2"]).processes.find?
          (pm "m1") = some r ∧
      r.end_time = (match lastTerminalStamp
          [ProcOp.update "COMPLETED" none none none none none "t2"] with
        | some t => some t
        | none => (freshProcess "m1" "t1").end_time) :=
  C1_end_time_characterization "m1"
    [ProcOp.update "COMPLETED" none none none none none "t2"]
    (create_process emptyDB "m1" "t1").1 (freshProcess "m1" "t1") rfl

/-! ### Transcript-store lemmas -/

theorem falsy_text_id (s : String) : (if s == "" then "" else s) = s := by
  by_cases h : s == ""
  · have : s = "" := by simpa using h
    simp [this]
  · simp [h]

theorem save_transcript_find?_present (db : DB) (m txt model mn : String)
    (cs ov : Int) (now : String) (r0 : ChunkRow)
    (h : db.chunks.find? (pc m) = some r0) :
    (save_transcript db m txt model mn cs ov now).chunks.find? (pc m) =
      some (savedChunkRow m r0.transcript_text txt model mn cs ov now) := by
  simp only [save_transcript, h, falsy_text_id]
  rw [find?_append_none _ _ _ (find?_filter_self_none (pc m) db.chunks)]
  simp [List.find?_cons, pc, savedChunkRow]

theorem save_transcript_find?_absent (db : DB) (m txt model mn : String)
    (cs ov : Int) (now : String)
    (h : db.chunks.find? (pc m) = none) :
    (save_transcript db m txt model mn cs ov now).chunks.find? (pc m) =
      some (savedChunkRow m "" txt model mn cs ov now) := by
  simp only [save_transcript, h]
  rw [find?_append_none _ _ _ (find?_filter_self_none (pc m) db.chunks)]
  simp [List.find?_cons, pc, savedChunkRow]

theorem save_transcript_find?_other (db : DB) (m m' txt model mn : String)
    (cs ov : Int) (now : String) (hmm : m' ≠ m) :
    (save_transcript db m txt model mn cs ov now).chunks.find? (pc m') =
      db.chunks.find? (pc m') := by
  have hdisj : ∀ a : ChunkRow, pc m' a = true → pc m a = false := by
    intro a ha
    have : a.meeting_id = m' := by simpa [pc] using ha
    simp [pc, this, hmm]
  have h1 := find?_filter_disj (pc m') (pc m) hdisj db.chunks
  simp only [save_transcript]
  cases hf : (db.chunks.filter fun a => !(pc m a)).find? (pc m') with
  | some a =>
    rw [find?_append_some _ _ _ _ hf, ← h1, hf]
  | none =>
    rw [find?_append_none _ _ _ hf, ← h1, hf]
    have : (m == m') = false := by
      simp [hmm.symm]
    simp [List.find?_cons, pc, this]

theorem save_transcript_frame (db : DB) (m txt model mn : String)
    (cs ov : Int) (now : String) :
    ((save_transcript db m txt model mn cs ov now).meetings = db.meetings) ∧
    ((save_transcript db m txt model mn cs ov now).processes = db.processes) ∧
    ((save_transcript db m txt model mn cs ov now).settings = db.settings) :=
  ⟨rfl, rfl, rfl⟩

/-- C2 counterexample: the claim says `save_transcript` on an existing
working-buffer row leaves `meeting_name` unchanged.  After
`save_transcript`, `update_meeting_name` (which sets
`meeting_name = "Standup"`), and a second `save_transcript`, the stored
`meeting_name` is NULL: the `INSERT OR REPLACE` omits the `meeting_name`
column, resetting it to its default. -/
theorem C2_counterexample :
    ((update_meeting_name (save_transcript emptyDB "m1" "a" "g" "g" 10 2 "t1")
        "m1" "Standup" "t2").chunks.find? (pc "m1")).map ChunkRow.meeting_name =
      some (some "Standup") ∧
    ((save_transcript (update_meeting_name
        (save_transcript emptyDB "m1" "a" "g" "g" 10 2 "t1") "m1" "Standup" "t2")
        "m1" "b" "g" "g" 10 2 "t3").chunks.find? (pc "m1")).map ChunkRow.meeting_name =
      some none :=
  ⟨rfl, rfl⟩

/-- C2 (amended): on a meeting with an existing working-buffer row,
`save_transcript` overwrites `transcript_text` (by appending the new text
to the stored text), `model`, `model_name`, `chunk_size`, `overlap` and
`created_at` with the latest call's values — and it also resets the row's
`meeting_name` to NULL (the `INSERT OR REPLACE` column list omits
`meeting_name`), so `meeting_name` is NOT left unchanged.  Rows of other
meetings and the other tables are untouched. -/
theorem C2_save_transcript_fields (db : DB) (m txt model mn : String)
    (cs ov : Int) (now : String) (r0 : ChunkRow)
    (h : db.chunks.find? (pc m) = some r0) :
    ∃ r, (save_transcript db m txt model mn cs ov now).chunks.find? (pc m) = some r ∧
      r.meeting_name = none ∧
      r.transcript_text = (if r0.transcript_text ≠ "" ∧ txt ≠ ""
                           then r0.transcript_text ++ txt
                           else if txt ≠ "" then txt
                           else r0.transcript_text) ∧
      r.model = model ∧ r.model_name = mn ∧
      r.chunk_size = some cs ∧ r.overlap = some ov ∧ r.created_at = now ∧
      (∀ m', m' ≠ m →
        (save_transcript db m txt model mn cs ov now).chunks.find? (pc m') =
          db.chunks.find? (pc m')) ∧
      (save_transcript db m txt model mn cs ov now).meetings = db.meetings ∧
      (save_transcript db m txt model mn cs ov now).processes = db.processes ∧
      (save_transcript db m txt model mn cs ov now).settings = db.settings :=
  ⟨savedChunkRow m r0.transcript_text txt model mn cs ov now,
    save_transcript_find?_present db m txt model mn cs ov now r0 h,
    rfl, rfl, rfl, rfl, rfl, rfl, rfl,
    fun m' hmm => save_transcript_find?_other db m m' txt model mn cs ov now hmm,
    rfl, rfl, rfl⟩

/-- Witness for `C2_save_transcript_fields`: a second save on the row
stored for `"m1"`. -/
theorem C2_witness :
    ∃ r, (save_transcript (save_transcript emptyDB "m1" "a" "g" "g" 10 2 "t1")
        "m1" "b" "g2" "g2" 20 4 "t2").chunks.find? (pc "m1") = some r ∧
      r.meeting_name = none ∧
      r.transcript_text =
        (if (savedChunkRow "m1" "" "a" "g" "g" 10 2 "t1").transcript_text ≠ "" ∧ "b" ≠ ""
         then (savedChunkRow "m1" "" "a" "g" "g" 10 2 "t1").transcript_text ++ "b"
         else if "b" ≠ "" then "b"
         else (savedChunkRow "m1" "" "a" "g" "g" 10 2 "t1").transcript_text) ∧
      r.model = "g2" ∧ r.model_name = "g2" ∧
      r.chunk_size = some 20 ∧ r.overlap = some 4 ∧ r.created_at = "t2" ∧
      (∀ m', m' ≠ "m1" →
        (save_transcript (save_transcript emptyDB "m1" "a" "g" "g" 10 2 "t1")
          "m1" "b" "g2" "g2" 20 4 "t2").chunks.find? (pc m') =
          (save_transcript emptyDB "m1" "a" "g" "g" 10 2 "t1").chunks.find? (pc m')) ∧
      (save_transcript (save_transcript emptyDB "m1" "a" "g" "g" 10 2 "t1")
        "m1" "b" "g2" "g2" 20 4 "t2").meetings =
        (save_transcript emptyDB "m1" "a" "g" "g" 10 2 "t1").meetings ∧
      (save_transcript (save_transcript emptyDB "m1" "a" "g" "g" 10 2 "t1")
        "m1" "b" "g2" "g2" 20 4 "t2").processes =
        (save_transcript emptyDB "m1" "a" "g" "g" 10 2 "t1").processes ∧
      (save_transcript (save_transcript emptyDB "m1" "a" "g" "g" 10 2 "t1")
        "m1" "b" "g2" "g2" 20 4 "t2").settings =
        (save_transcript emptyDB "m1" "a" "g" "g" 10 2 "t1").settings :=
  C2_save_transcript_fields (save_transcript emptyDB "m1" "a" "g" "g" 10 2 "t1")
    "m1" "b" "g2" "g2" 20 4 "t2" (savedChunkRow "m1" "" "a" "g" "g" 10 2 "t1") rfl

/-- C3: starting from a meeting with no working-buffer row, saving text `a`
and then text `b` stores exactly the concatenation `a ++ b`, while `model`,
`model_name`, `chunk_size` and `overlap` carry the second call's
arguments. -/
theorem C3_save_transcript_concat (db : DB) (m a b model1 mn1 : String)
    (cs1 ov1 : Int) (t1 : String) (model2 mn2 : String) (cs2 ov2 : Int) (t2 : String)
    (h : db.chunks.find? (pc m) = none) :
    ∃ r, (save_transcript (save_transcript db m a model1 mn1 cs1 ov1 t1)
        m b model2 mn2 cs2 ov2 t2).chunks.find? (pc m) = some r ∧
      r.transcript_text = a ++ b ∧
      r.model = model2 ∧ r.model_name = mn2 ∧
      r.chunk_size = some cs2 ∧ r.overlap = some ov2 ∧ r.created_at = t2 := by
  have h1 := save_transcript_find?_absent db m a model1 mn1 cs1 ov1 t1 h
  have h2 := save_transcript_find?_present (save_transcript db m a model1 mn1 cs1 ov1 t1)
    m b model2 mn2 cs2 ov2 t2 _ h1
  refine ⟨_, h2, ?_, rfl, rfl, rfl, rfl, rfl⟩
  show (savedChunkRow m (savedChunkRow m "" a model1 mn1 cs1 ov1 t1).transcript_text
      b model2 mn2 cs2 ov2 t2).transcript_text = a ++ b
  by_cases ha : a = "" <;> by_cases hb : b = "" <;>
    simp [savedChunkRow, ha, hb]

/-- Witness for `C3_save_transcript_concat`: two saves on the empty store
yield `"ab"`. -/
theorem C3_witness :
    ∃ r, (save_transcript (save_transcript emptyDB "m1" "a" "x" "x" 1 1 "t1")
        "m1" "b" "y" "y" 2 2 "t2").chunks.find? (pc "m1") = some r ∧
      r.transcript_text = "a" ++ "b" ∧
      r.model = "y" ∧ r.model_name = "y" ∧
      r.chunk_size = some 2 ∧ r.overlap = some 2 ∧ r.created_at = "t2" :=
  C3_save_transcript_concat emptyDB "m1" "a" "b" "x" "x" 1 1 "t1" "y" "y" 2 2 "t2" rfl

/-! ### Read path and meeting registry -/

/-- C9: `get_transcript_data` returns a record exactly when both the
working-buffer row and the process row exist (inner-join semantics); in
particular a meeting with saved chunks but no process row yields `none`,
and one with a process row but no chunks yields `none`.  The operation is a
pure read: it takes the store and returns a value, with no new store. -/
theorem C9_get_transcript_data_join (db : DB) (m : String) :
    ((get_transcript_data db m).isSome ↔
      ((db.chunks.find? (pc m)).isSome ∧ (db.processes.find? (pm m)).isSome)) ∧
    (db.processes.find? (pm m) = none → get_transcript_data db m = none) ∧
    (db.chunks.find? (pc m) = none → get_transcript_data db m = none) := by
  unfold get_transcript_data
  cases hc : db.chunks.find? (pc m) <;> cases hp : db.processes.find? (pm m) <;> simp

/-- Witness for `C9_get_transcript_data_join`: scenario A — chunks saved
for `"m1"` but no process row gives `none`. -/
theorem C9_witness :
    get_transcript_data (save_transcript emptyDB "m1" "<p>hello</p>" "gpt-4o-mini"
      "gpt-4o-mini" 1000 100 "t1") "m1" = none :=
  (C9_get_transcript_data_join (save_transcript emptyDB "m1" "<p>hello</p>" "gpt-4o-mini"
    "gpt-4o-mini" 1000 100 "t1") "m1").2.1 rfl

/-- C10: `save_meeting` inserts a new row when no existing meeting has the
given id or the given title, and otherwise fails with the conflict error
and writes nothing; in particular a second call with the same id and title
fails and exactly one row with that id (and that title) remains. -/
theorem C10_save_meeting_conflict (db : DB) (m t now now2 : String) :
    (db.meetings.find? (fun r => r.id == m || r.title == t) = none →
      save_meeting db m t now =
        Except.ok ({ db with meetings := db.meetings ++ [newMeetingRow m t now] }, true) ∧
      save_meeting { db with meetings := db.meetings ++ [newMeetingRow m t now] } m t now2 =
        Except.error ("Meeting with ID " ++ m ++ " already exists") ∧
      db.meetings.countP (fun r => r.id == m) = 0 ∧
      db.meetings.countP (fun r => r.title == t) = 0 ∧
      (db.meetings ++ [newMeetingRow m t now]).countP (fun r => r.id == m) = 1 ∧
      (db.meetings ++ [newMeetingRow m t now]).countP (fun r => r.title == t) = 1) ∧
    (∀ r0, db.meetings.find? (fun r => r.id == m || r.title == t) = some r0 →
      save_meeting db m t now = Except.error ("Meeting with ID " ++ m ++ " already exists")) := by
  constructor
  · intro h
    have hall := List.find?_eq_none.mp h
    have hid : db.meetings.countP (fun r => r.id == m) = 0 := by
      apply List.countP_eq_zero.mpr
      intro r hr hrid
      exact hall r hr (by simp [hrid])
    have htitle : db.meetings.countP (fun r => r.title == t) = 0 := by
      apply List.countP_eq_zero.mpr
      intro r hr hrt
      exact hall r hr (by simp [hrt])
    refine ⟨by simp [save_meeting, h, newMeetingRow], ?_, hid, htitle, ?_, ?_⟩
    · have happ : (db.meetings ++ [newMeetingRow m t now]).find?
          (fun r => r.id == m || r.title == t) = some (newMeetingRow m t now) := by
        rw [find?_append_none _ _ _ h]
        simp [List.find?_cons, newMeetingRow]
      simp [save_meeting, happ]
    · simp [List.countP_append, hid, List.countP_cons, newMeetingRow]
    · simp [List.countP_append, htitle, List.countP_cons, newMeetingRow]
  · intro r0 h
    simp [save_meeting, h]

/-- Witness for `C10_save_meeting_conflict`: scenario D on the empty store
— the first `save_meeting("m2","Title")` succeeds, the second fails with
the conflict error, and exactly one row with id `"m2"` exists. -/
theorem C10_witness :
    save_meeting emptyDB "m2" "Title" "t0" =
      Except.ok ({ emptyDB with
        meetings := emptyDB.meetings ++ [newMeetingRow "m2" "Title" "t0"] }, true) ∧
    save_meeting { emptyDB with
        meetings := emptyDB.meetings ++ [newMeetingRow "m2" "Title" "t0"] }
        "m2" "Title" "t1" =
      Except.error ("Meeting with ID " ++ "m2" ++ " already exists") ∧
    emptyDB.meetings.countP (fun r => r.id == "m2") = 0 ∧
    emptyDB.meetings.countP (fun r => r.title == "Title") = 0 ∧
    (emptyDB.meetings ++ [newMeetingRow "m2" "Title" "t0"]).countP
      (fun r => r.id == "m2") = 1 ∧
    (emptyDB.meetings ++ [newMeetingRow "m2" "Title" "t0"]).countP
      (fun r => r.title == "Title") = 1 :=
  (C10_save_meeting_conflict emptyDB "m2" "Title" "t0" "t1").1 rfl

/-! ### Settings and API keys -/

theorem ps1_setColumn (name : String) (v : Option String) (r : SettingsRow) :
    ps1 (setColumn name v r) = ps1 r := by
  unfold setColumn
  split_ifs <;> rfl

/-- C7: an API-key operation with a provider outside the allow-list
`{openai, claude, groq, ollama}` (e.g. `"azure"`) fails with the
invalid-provider error before any storage access — the error result carries
no store, so storage is untouched; with an allowed provider, each
operation targets exactly the dedicated column `api_key_name p` of the
settings row with id `'1'`: save writes the key there, delete nulls that
column without deleting any row (the row count is preserved and the id-'1'
row survives with only that column changed), get reads only that column,
and `setColumn` on that column leaves the id, `provider`, `model`,
`whisperModel` and every other API-key column unchanged. -/
theorem C7_api_key_allowlist (db : DB) (k p : String) :
    (p ∉ provider_list →
      save_api_key db k p = Except.error ("Invalid provider: " ++ p) ∧
      get_api_key db p = Except.error ("Invalid provider: " ++ p) ∧
      delete_api_key db p = Except.error ("Invalid provider: " ++ p)) ∧
    (p ∈ provider_list →
      save_api_key db k p = Except.ok (updateKeyColumn db (api_key_name p) (some k)) ∧
      delete_api_key db p = Except.ok (updateKeyColumn db (api_key_name p) none) ∧
      (updateKeyColumn db (api_key_name p) none).settings.length = db.settings.length ∧
      (updateKeyColumn db (api_key_name p) none).settings.find? ps1 =
        (db.settings.find? ps1).map (setColumn (api_key_name p) none) ∧
      (updateKeyColumn db (api_key_name p) none).meetings = db.meetings ∧
      (updateKeyColumn db (api_key_name p) none).processes = db.processes ∧
      (updateKeyColumn db (api_key_name p) none).chunks = db.chunks ∧
      (∀ r, db.settings.find? ps1 = some r →
        get_api_key db p = Except.ok (match getColumn (api_key_name p) r with
          | some v => if v == "" then none else some v
          | none => none)) ∧
      (∀ (v : Option String) (r : SettingsRow),
        getColumn (api_key_name p) (setColumn (api_key_name p) v r) = v ∧
        (setColumn (api_key_name p) v r).id = r.id ∧
        (setColumn (api_key_name p) v r).provider = r.provider ∧
        (setColumn (api_key_name p) v r).model = r.model ∧
        (setColumn (api_key_name p) v r).whisperModel = r.whisperModel ∧
        (∀ q, q ∈ api_key_columns → q ≠ api_key_name p →
          getColumn q (setColumn (api_key_name p) v r) = getColumn q r))) := by
  constructor
  · intro hnp
    refine ⟨?_, ?_, ?_⟩ <;> simp [save_api_key, get_api_key, delete_api_key, hnp]
  · intro hp
    have hfind : ∀ v : Option String,
        (updateKeyColumn db (api_key_name p) v).settings.find? ps1
          = (db.settings.find? ps1).map (setColumn (api_key_name p) v) := by
      intro v
      have hpres : ∀ r, ps1 (if ps1 r then setColumn (api_key_name p) v r else r) = ps1 r := by
        intro r
        by_cases hr : ps1 r <;> simp [hr, ps1_setColumn]
      show (db.settings.map _).find? ps1 = _
      rw [find?_map_pres _ _ hpres]
      cases hf : db.settings.find? ps1 with
      | none => rfl
      | some a => simp [List.find?_some hf]
    have hcases : p = "openai" ∨ p = "claude" ∨ p = "groq" ∨ p = "ollama" := by
      simpa [provider_list] using hp
    have hsave : save_api_key db k p =
        Except.ok (updateKeyColumn db (api_key_name p) (some k)) := by
      simp only [save_api_key]
      rw [if_neg (not_not_intro hp)]
      rfl
    have hdel : delete_api_key db p =
        Except.ok (updateKeyColumn db (api_key_name p) none) := by
      simp only [delete_api_key]
      rw [if_neg (not_not_intro hp)]
      rfl
    have hget : ∀ r, db.settings.find? ps1 = some r →
        get_api_key db p = Except.ok (match getColumn (api_key_name p) r with
          | some v => if v == "" then none else some v
          | none => none) := by
      intro r hr
      simp only [get_api_key]
      rw [if_neg (not_not_intro hp), hr]
      cases hcol : getColumn (api_key_name p) r <;> simp [hcol]
    have hlen : (updateKeyColumn db (api_key_name p) none).settings.length =
        db.settings.length := by
      show (db.settings.map _).length = _
      simp
    refine ⟨hsave, hdel, hlen, hfind none, rfl, rfl, rfl, hget, ?_⟩
    intro v r
    rcases hcases with h | h | h | h <;> subst h <;>
      refine ⟨rfl, rfl, rfl, rfl, rfl, ?_⟩ <;>
      intro q hq hne <;>
      simp only [api_key_columns, List.mem_cons, List.not_mem_nil, or_false] at hq <;>
      rcases hq with h | h | h | h <;> subst h <;>
      first
        | (exact absurd (by decide) hne)
        | rfl

/-- Witness for `C7_api_key_allowlist`: the invalid-provider branch at
`"azure"` on the empty store. -/
theorem C7_witness :
    save_api_key emptyDB "sk" "azure" = Except.error ("Invalid provider: " ++ "azure") ∧
    get_api_key emptyDB "azure" = Except.error ("Invalid provider: " ++ "azure") ∧
    delete_api_key emptyDB "azure" = Except.error ("Invalid provider: " ++ "azure") :=
  (C7_api_key_allowlist emptyDB "sk" "azure").1 (by decide)

/-- C8: however many times the bootstrap runs (at least once), exactly one
settings row with id `'1'` exists afterwards; when none existed the default
row (`provider = "openai"`, `model = "gpt-4o-mini"`,
`whisperModel = "whisper-1"`) is inserted, and when one already existed the
store is completely unchanged (no field is overwritten).  The hypothesis is
the primary-key invariant: at most one pre-existing row with id `'1'`. -/
theorem C8_settings_bootstrap (db : DB) (n : Nat)
    (h1 : db.settings.countP ps1 ≤ 1) (h2 : 1 ≤ n) :
    (initIter n db).settings.countP ps1 = 1 ∧
    (db.settings.any ps1 = true → initIter n db = db) ∧
    (db.settings.any ps1 = false →
      initIter n db = { db with settings := db.settings ++ [defaultSettingsRow] }) ∧
    defaultSettingsRow.id = "1" ∧
    defaultSettingsRow.provider = "openai" ∧
    defaultSettingsRow.model = "gpt-4o-mini" ∧
    defaultSettingsRow.whisperModel = "whisper-1" := by
  have hfixAll : ∀ (k : Nat) (d : DB), d.settings.any ps1 = true → initIter k d = d := by
    intro k
    induction k with
    | zero => intro d _; rfl
    | succ k ih =>
      intro d hd
      show initIter k (_init_db d) = d
      rw [show _init_db d = d by simp [_init_db, hd]]
      exact ih d hd
  cases hany : db.settings.any ps1 with
  | true =>
    have hone : db.settings.countP ps1 = 1 := by
      obtain ⟨x, hx, hpx⟩ := List.any_eq_true.mp hany
      have : db.settings.countP ps1 ≠ 0 := by
        intro hz
        exact List.countP_eq_zero.mp hz x hx hpx
      omega
    have hfix := hfixAll n db hany
    refine ⟨by rw [hfix]; exact hone, fun _ => hfix, ?_, rfl, rfl, rfl, rfl⟩
    intro hc
    exact absurd hc (by simp)
  | false =>
    have hz : db.settings.countP ps1 = 0 := by
      apply List.countP_eq_zero.mpr
      intro a ha hpa
      exact absurd hpa (by simpa using List.any_eq_false.mp hany a ha)
    have hstep : _init_db db = { db with settings := db.settings ++ [defaultSettingsRow] } := by
      simp [_init_db, hany]
    have hany2 : ({ db with settings := db.settings ++ [defaultSettingsRow] } : DB).settings.any
        ps1 = true := by
      apply List.any_eq_true.mpr
      exact ⟨defaultSettingsRow, by simp, rfl⟩
    obtain ⟨n', rfl⟩ : ∃ n', n = n' + 1 := ⟨n - 1, by omega⟩
    have hrun : initIter (n' + 1) db =
        { db with settings := db.settings ++ [defaultSettingsRow] } := by
      show initIter n' (_init_db db) = _
      rw [hstep]
      exact hfixAll n' _ hany2
    refine ⟨?_, ?_, fun _ => hrun, rfl, rfl, rfl, rfl⟩
    · rw [hrun]
      simp [List.countP_append, hz, List.countP_cons, ps1, defaultSettingsRow]
    · intro hc
      exact absurd hc (by simp)

/-- Witness for `C8_settings_bootstrap`: three bootstrap runs on the empty
store insert the default row exactly once. -/
theorem C8_witness :
    (initIter 3 emptyDB).settings.countP ps1 = 1 ∧
    (emptyDB.settings.any ps1 = true → initIter 3 emptyDB = emptyDB) ∧
    (emptyDB.settings.any ps1 = false →
      initIter 3 emptyDB =
        { emptyDB with settings := emptyDB.settings ++ [defaultSettingsRow] }) ∧
    defaultSettingsRow.id = "1" ∧
    defaultSettingsRow.provider = "openai" ∧
    defaultSettingsRow.model = "gpt-4o-mini" ∧
    defaultSettingsRow.whisperModel = "whisper-1" :=
  C8_settings_bootstrap emptyDB 3 (by decide) (by decide)

end MeetingDB
